import Mathlib

/-!
A verification development for the AI News Aggregator (src/script.js).

The script aggregates news articles from a list of source clients
(two mock sources in the shipped code), flattens the per-source result
arrays, sorts them newest-first by the `publishedAt` field parsed as a
timestamp, and renders them into the page; on failure it renders an
error message instead.

The embedding below translates the script's functions into Lean:

* `Article` is the common article shape; absent fields are `Option.none`
  (the script reads absent properties as `undefined`, which is falsy).
* `dateValue` models `new Date(s).getTime()` on the ISO-8601
  `YYYY-MM-DDTHH:MM:SSZ` strings the program uses (the only format the
  repository's data carries); a string outside this format is `none`,
  modelling an Invalid Date / `NaN` time value.  Years `0001`-`9999`
  are covered by the civil-calendar conversion.
* `dateCmp` is the sort comparator `new Date(b.publishedAt) -
  new Date(a.publishedAt)`; when either date is invalid the subtraction
  yields `NaN`, which the ECMAScript `SortCompare` operation coerces to
  `+0`, hence the `none` branches return `0`.
* `jsArraySort` models `Array.prototype.sort(comparefn)`: ECMAScript
  requires a stable sort that is sorted with respect to a consistent
  comparator; a stable insertion sort realises exactly that contract
  (for an inconsistent comparator the ECMAScript result is
  implementation-defined, and this embedding fixes one behaviour).
* `promiseAll` models `Promise.all`: it rejects when any input rejects
  and otherwise resolves to the list of results.
* `fetchAllNewsFrom` is `fetchAllNews` generalised over the list of
  source-client results, as the spec's Aggregator contract is; the
  script's concrete `fetchAllNews` instantiates it with the two mocks.
* `renderArticles`, `displayErrorText` and `init` model the DOM writes
  as a pure `UIState` value (inter-element whitespace of the HTML
  template literal is elided).
* The Cache Store (`CacheEntry`, `isFresh`, `getArticles`) and the
  credential-aware failure boundary exist only in the repository's
  second variant, which is not part of src/; they are modelled from the
  spec and marked as such.
-/

/-- The common article shape of the script.  Optional fields model
properties that may be absent (`undefined`); `publishedAt` is the sort
key and is always present in the program's data. -/
structure Article where
  title : Option String
  url : Option String
  description : Option String
  source : Option String
  publishedAt : String
deriving DecidableEq

/-- Gregorian leap-year rule, as used by the `Date` object's calendar. -/
def isLeapYear (y : Nat) : Bool :=
  (y % 4 == 0 && y % 100 != 0) || y % 400 == 0

/-- Number of days in month `m` of year `y`. -/
def daysInMonth (y m : Nat) : Nat :=
  if m = 2 then (if isLeapYear y then 29 else 28)
  else if m = 4 ∨ m = 6 ∨ m = 9 ∨ m = 11 then 30
  else 31

/-- Days from the Unix epoch 1970-01-01 to the civil date `y-m-d`
(standard era/day-of-era conversion, exact for years ≥ 1). -/
def daysFromCivil (y m d : Nat) : Int :=
  let yShift := if m ≤ 2 then y - 1 else y
  let era := yShift / 400
  let yoe := yShift % 400
  let mp := (m + 9) % 12
  let doy := (153 * mp + 2) / 5 + (d - 1)
  let doe := yoe * 365 + yoe / 4 - yoe / 100 + doy
  (era * 146097 + doe : Int) - 719468

/-- Numeric value of a decimal digit character. -/
def digitVal (c : Char) : Nat := c.toNat - 48

/-- Models `new Date(s).getTime()` on the `YYYY-MM-DDTHH:MM:SSZ` strings
the program uses: `some` epoch milliseconds when the string is a valid
date-time of that shape, `none` (an Invalid Date, time value `NaN`)
otherwise. -/
def dateValue (s : String) : Option Int :=
  match s.data with
  | [y1, y2, y3, y4, c1, m1, m2, c2, d1, d2, ct, h1, h2, c3, n1, n2, c4, p1, p2, cz] =>
    if c1 = '-' ∧ c2 = '-' ∧ ct = 'T' ∧ c3 = ':' ∧ c4 = ':' ∧ cz = 'Z'
        ∧ y1.isDigit ∧ y2.isDigit ∧ y3.isDigit ∧ y4.isDigit
        ∧ m1.isDigit ∧ m2.isDigit ∧ d1.isDigit ∧ d2.isDigit
        ∧ h1.isDigit ∧ h2.isDigit ∧ n1.isDigit ∧ n2.isDigit
        ∧ p1.isDigit ∧ p2.isDigit then
      let y := 1000 * digitVal y1 + 100 * digitVal y2 + 10 * digitVal y3 + digitVal y4
      let mo := 10 * digitVal m1 + digitVal m2
      let d := 10 * digitVal d1 + digitVal d2
      let hh := 10 * digitVal h1 + digitVal h2
      let mi := 10 * digitVal n1 + digitVal n2
      let sec := 10 * digitVal p1 + digitVal p2
      if 1 ≤ mo ∧ mo ≤ 12 ∧ 1 ≤ d ∧ d ≤ daysInMonth y mo ∧ hh ≤ 23 ∧ mi ≤ 59 ∧ sec ≤ 59 then
        some (daysFromCivil y mo d * 86400000 + (hh * 3600000 + mi * 60000 + sec * 1000 : Nat))
      else none
    else none
  | _ => none

/-- The sort comparator of `fetchAllNews`:
`(a, b) => new Date(b.publishedAt) - new Date(a.publishedAt)`.
When either date is invalid the subtraction yields `NaN`, which the
ECMAScript `SortCompare` operation coerces to `+0`. -/
def dateCmp (a b : Article) : Int :=
  match dateValue b.publishedAt, dateValue a.publishedAt with
  | some tb, some ta => tb - ta
  | _, _ => 0

/-- The Boolean "may come first" relation induced by the comparator:
`a` may precede `b` when the comparator does not order `b` before `a`. -/
def sortLe (a b : Article) : Bool := decide (dateCmp a b ≤ 0)

/-- Stable insertion of `a` into `l`: `a` goes in front of the first
element it may precede, after every earlier-arrived element it ties
with. -/
def jsInsert {α : Type} (le : α → α → Bool) (a : α) : List α → List α
  | [] => [a]
  | b :: l => if le a b then a :: b :: l else b :: jsInsert le a l

/-- Stable insertion sort, the embedding of
`Array.prototype.sort(comparefn)` (which ECMAScript pins down to the
stable result sorted by a consistent comparator). -/
def jsArraySort {α : Type} (le : α → α → Bool) : List α → List α
  | [] => []
  | a :: l => jsInsert le a (jsArraySort le l)

/-- The merge-and-sort core of `fetchAllNews`: flatten the per-source
result arrays (`results.flat()`) and sort by the date comparator. -/
def aggregate (results : List (List Article)) : List Article :=
  jsArraySort sortLe results.flatten

/-- Models `Promise.all`: rejects when any input rejects, otherwise
resolves to the list of all results. -/
def promiseAll {ε α : Type} : List (Except ε α) → Except ε (List α)
  | [] => Except.ok []
  | Except.error e :: _ => Except.error e
  | Except.ok a :: rest => (promiseAll rest).map (fun l => a :: l)

/-- `fetchAllNews` generalised over the source-client results: wait for
all sources (`Promise.all`), then flatten and sort.  A rejection of any
source rejects the whole aggregation. -/
def fetchAllNewsFrom (sources : List (Except String (List Article))) :
    Except String (List Article) :=
  match promiseAll sources with
  | Except.error e => Except.error e
  | Except.ok results => Except.ok (aggregate results)

/-- The two articles resolved by `mockFetchAIHeadlines`. -/
def aiHeadlines : List Article :=
  [ { title := some "New Breakthrough in Large Language Models Allows for Real-Time Reasoning",
      url := some "#",
      description := some "Researchers have developed a novel architecture that significantly reduces the computational overhead of LLMs, paving the way for on-device AI.",
      source := some "AI News Central",
      publishedAt := "2024-10-26T18:00:00Z" },
    { title := some "Generative AI Creates Award-Winning Short Film",
      url := some "#",
      description := some "An AI model named 'Cinemind' has written, directed, and edited a short film that has won accolades at an independent film festival.",
      source := some "AI News Central",
      publishedAt := "2024-10-26T14:30:00Z" } ]

/-- The two articles resolved by `mockFetchTechBlogs`. -/
def techBlogs : List Article :=
  [ { title := some "Is AGI Closer Than We Think? A Deep Dive",
      url := some "#",
      description := some "A comprehensive analysis of the current state of Artificial General Intelligence research and the remaining hurdles.",
      source := some "Tech Frontier",
      publishedAt := "2024-10-27T09:00:00Z" },
    { title := some "How to Fine-Tune Your Own AI Model with Public Datasets",
      url := some "#",
      description := some "A step-by-step guide for developers looking to specialize open-source models for their own unique applications.",
      source := some "Tech Frontier",
      publishedAt := "2024-10-25T11:00:00Z" } ]

/-- `mockFetchAIHeadlines`: always resolves (the promise executor only
ever calls `resolve`), with the fixed article list. -/
def mockFetchAIHeadlines : Except String (List Article) := Except.ok aiHeadlines

/-- `mockFetchTechBlogs`: always resolves, with the fixed article list. -/
def mockFetchTechBlogs : Except String (List Article) := Except.ok techBlogs

/-- The script's `fetchAllNews`, instantiated with the two configured
mock sources. -/
def fetchAllNews : Except String (List Article) :=
  fetchAllNewsFrom [mockFetchAIHeadlines, mockFetchTechBlogs]

/-- Models the JavaScript `value || default` fallback used in
`renderArticles`: an absent (`undefined`) or empty string is falsy and
is replaced by the default display text. -/
def orDefault (v : Option String) (d : String) : String :=
  match v with
  | none => d
  | some s => if s = "" then d else s

/-- The HTML produced for one article by the `articles.map` body of
`renderArticles` (inter-element whitespace of the template literal is
elided; `fmtDate` abstracts the locale-dependent
`toLocaleDateString`). -/
def articleHtml (fmtDate : String → String) (a : Article) : String :=
  let title := orDefault a.title "Untitled Article"
  let url := orDefault a.url "#"
  let description := orDefault a.description "No description available."
  let source := orDefault a.source "Unknown Source"
  let date := fmtDate a.publishedAt
  "<article class=\"news-article\"><h2><a href=\"" ++ url ++
    "\" target=\"_blank\" rel=\"noopener noreferrer\">" ++ title ++
    "</a></h2><p>" ++ description ++
    "</p><div class=\"article-meta\"><span class=\"source\">" ++ source ++
    "</span><time datetime=\"" ++ a.publishedAt ++ "\">" ++ date ++
    "</time></div></article>"

/-- `renderArticles`: the string written to `news-container.innerHTML`
(the `!articles` null guard has no counterpart for a total list). -/
def renderArticles (fmtDate : String → String) (articles : List Article) : String :=
  if articles.length = 0 then "<p>No news articles found at this time.</p>"
  else String.join (articles.map (articleHtml fmtDate))

/-- The DOM state the script writes: the `display` style of the loader
and of the error container, the error container's text, and the news
container's `innerHTML`. -/
structure UIState where
  loaderDisplay : String
  errorDisplay : String
  errorText : String
  newsHtml : String
deriving DecidableEq

/-- The text `displayError` writes into the error container. -/
def displayErrorText (message : String) : String :=
  "Failed to load news: " ++ message ++ ". Please try again later."

/-- `displayError`: hide the loader, show the error container, set its
text. -/
def applyDisplayError (st : UIState) (message : String) : UIState :=
  { st with loaderDisplay := "none", errorDisplay := "block",
            errorText := displayErrorText message }

/-- The state after step 1 of `init` (loader shown, error hidden, news
container cleared), on a fresh page whose error text is empty. -/
def initState : UIState :=
  { loaderDisplay := "block", errorDisplay := "none", errorText := "", newsHtml := "" }

/-- The message `init`'s catch passes on:
`error.message || 'An unknown error occurred'` (an empty message is
falsy). -/
def effectiveMessage (msg : String) : String :=
  if msg = "" then "An unknown error occurred" else msg

/-- `init` as a function of the aggregation outcome: on success render
the articles and hide the loader; on failure run `displayError` with
the effective message. -/
def init (fmtDate : String → String) (fetched : Except String (List Article)) : UIState :=
  match fetched with
  | Except.ok articles =>
      { initState with newsHtml := renderArticles fmtDate articles, loaderDisplay := "none" }
  | Except.error msg =>
      applyDisplayError initState (effectiveMessage msg)

/-- Modelled from the spec: the Cache Store's persisted record (§3
CacheEntry) — the cached article list plus the epoch-millisecond fetch
time.  The Cache Store exists only in the repository's second variant,
which is not part of src/. -/
structure CacheEntry where
  articles : List Article
  fetchedAtEpochMs : Int
deriving DecidableEq

/-- Modelled from the spec: the freshness predicate (§4.2) — true iff
the entry is present and `now - fetchedAt < maxAge`. -/
def isFresh (entry : Option CacheEntry) (nowEpochMs maxAgeMs : Int) : Bool :=
  match entry with
  | none => false
  | some e => decide (nowEpochMs - e.fetchedAtEpochMs < maxAgeMs)

deriving instance DecidableEq for Except

/-- The observable outcome of one `getArticles` request: the returned
value or failure, how many Source Clients were invoked, and the cache
slot after the request. -/
structure AggregatorOutcome where
  result : Except String (List Article)
  sourceCalls : Nat
  cacheAfter : Option CacheEntry
deriving DecidableEq

/-- Modelled from the spec: the Aggregator's `getArticles` (§4.3) — the
cache-or-fetch flow missing from src/ (src/script.js has no cache).
Read the cache; if fresh return its list verbatim with zero Source
Client calls; otherwise invoke every source, fail as a whole if any
fails (leaving the cache unwritten), else store and return the merged,
sorted list. -/
def getArticles (cache : Option CacheEntry) (nowEpochMs maxAgeMs : Int)
    (sources : List (Except String (List Article))) : AggregatorOutcome :=
  if isFresh cache nowEpochMs maxAgeMs then
    { result := Except.ok ((cache.map CacheEntry.articles).getD []),
      sourceCalls := 0, cacheAfter := cache }
  else
    match promiseAll sources with
    | Except.error e =>
        { result := Except.error e, sourceCalls := sources.length, cacheAfter := cache }
    | Except.ok results =>
        { result := Except.ok (aggregate results), sourceCalls := sources.length,
          cacheAfter := some { articles := aggregate results, fetchedAtEpochMs := nowEpochMs } }

/-- Modelled from the spec: the distinct, actionable message the
boundary shows when the failure text indicates a missing or invalid
credential (§7) — present only in the repository's second variant, not
in src/. -/
def credentialMessage : String :=
  "Failed to load news: the API credential is missing or invalid."

/-- Modelled from the spec: the failure text the boundary shows —
special-cased to `credentialMessage` when the failure text indicates a
credential problem (the detector is the second variant's, abstracted as
a parameter), the generic `displayError` text otherwise. -/
def boundaryFailureText (indicatesCredential : String → Bool) (message : String) : String :=
  if indicatesCredential message then credentialMessage else displayErrorText message

/-- Modelled from the spec: `init` with the credential-aware failure
boundary of the second variant in place of the plain `displayError`. -/
def initBoundary (indicatesCredential : String → Bool) (fmtDate : String → String)
    (fetched : Except String (List Article)) : UIState :=
  match fetched with
  | Except.ok articles =>
      { initState with newsHtml := renderArticles fmtDate articles, loaderDisplay := "none" }
  | Except.error msg =>
      { initState with
        loaderDisplay := "none"
        errorDisplay := "block"
        errorText := boundaryFailureText indicatesCredential (effectiveMessage msg) }

/-- Inserting adds exactly one element. -/
theorem length_jsInsert {α : Type} (le : α → α → Bool) (a : α) (l : List α) :
    (jsInsert le a l).length = l.length + 1 := by
  induction l with
  | nil => rfl
  | cons b bs ih =>
    simp only [jsInsert]
    split
    · rfl
    · simp [ih]

/-- Insertion permutes the element onto the list. -/
theorem perm_jsInsert {α : Type} (le : α → α → Bool) (a : α) (l : List α) :
    List.Perm (jsInsert le a l) (a :: l) := by
  induction l with
  | nil => exact List.Perm.refl _
  | cons b bs ih =>
    simp only [jsInsert]
    split
    · exact List.Perm.refl _
    · exact (List.Perm.cons b ih).trans (List.Perm.swap a b bs)

/-- The sort permutes its input. -/
theorem perm_jsArraySort {α : Type} (le : α → α → Bool) (l : List α) :
    List.Perm (jsArraySort le l) l := by
  induction l with
  | nil => exact List.Perm.refl _
  | cons a as ih =>
    exact (perm_jsInsert le a (jsArraySort le as)).trans (List.Perm.cons a ih)

/-- The sort preserves the length. -/
theorem length_jsArraySort {α : Type} (le : α → α → Bool) (l : List α) :
    (jsArraySort le l).length = l.length :=
  (perm_jsArraySort le l).length_eq

/-- Inserting into a list ordered by a total, transitive Boolean
relation keeps it ordered. -/
theorem pairwise_jsInsert {α : Type} {le : α → α → Bool}
    (htot : ∀ x y, le x y = true ∨ le y x = true)
    (htrans : ∀ x y z, le x y = true → le y z = true → le x z = true)
    (a : α) (l : List α) (h : l.Pairwise (fun x y => le x y = true)) :
    (jsInsert le a l).Pairwise (fun x y => le x y = true) := by
  induction l with
  | nil => simp [jsInsert]
  | cons b bs ih =>
    rw [List.pairwise_cons] at h
    obtain ⟨hb, hbs⟩ := h
    simp only [jsInsert]
    by_cases hab : le a b = true
    · rw [if_pos hab]
      refine List.pairwise_cons.mpr ⟨?_, List.pairwise_cons.mpr ⟨hb, hbs⟩⟩
      intro c hc
      rcases List.mem_cons.mp hc with hcb | hc
      · rw [hcb]
        exact hab
      · exact htrans a b c hab (hb c hc)
    · rw [if_neg hab]
      refine List.pairwise_cons.mpr ⟨?_, ih hbs⟩
      intro c hc
      rcases List.mem_cons.mp ((perm_jsInsert le a bs).mem_iff.mp hc) with hca | hc
      · rw [hca]
        rcases htot a b with h1 | h1
        · exact absurd h1 hab
        · exact h1
      · exact hb c hc

/-- The sort orders its output by any total, transitive Boolean
relation it is run with. -/
theorem pairwise_jsArraySort {α : Type} {le : α → α → Bool}
    (htot : ∀ x y, le x y = true ∨ le y x = true)
    (htrans : ∀ x y z, le x y = true → le y z = true → le x z = true)
    (l : List α) :
    (jsArraySort le l).Pairwise (fun x y => le x y = true) := by
  induction l with
  | nil => simp [jsArraySort]
  | cons a as ih => exact pairwise_jsInsert htot htrans a _ ih

/-- Insertion only applies the relation to the inserted element and
list elements, so two relations agreeing there insert identically. -/
theorem jsInsert_congr {α : Type} {le le' : α → α → Bool} {P : α → Prop}
    (agree : ∀ x y, P x → P y → le x y = le' x y)
    {a : α} (ha : P a) {l : List α} (hl : ∀ x ∈ l, P x) :
    jsInsert le a l = jsInsert le' a l := by
  induction l with
  | nil => rfl
  | cons b bs ih =>
    have hb : P b := hl b (List.mem_cons_self b bs)
    have hbs : ∀ x ∈ bs, P x := fun x hx => hl x (List.mem_cons_of_mem b hx)
    simp only [jsInsert, agree a b ha hb, ih hbs]

/-- The sort only applies the relation to list elements, so two
relations agreeing on them sort identically. -/
theorem jsArraySort_congr {α : Type} {le le' : α → α → Bool} {P : α → Prop}
    (agree : ∀ x y, P x → P y → le x y = le' x y)
    {l : List α} (hl : ∀ x ∈ l, P x) :
    jsArraySort le l = jsArraySort le' l := by
  induction l with
  | nil => rfl
  | cons a as ih =>
    have ha : P a := hl a (List.mem_cons_self a as)
    have has : ∀ x ∈ as, P x := fun x hx => hl x (List.mem_cons_of_mem a hx)
    have hsorted : ∀ x ∈ jsArraySort le' as, P x := fun x hx =>
      has x ((perm_jsArraySort le' as).mem_iff.mp hx)
    simp only [jsArraySort]
    rw [ih has, jsInsert_congr agree ha hsorted]

/-- The parsed sort key of an article, with an invalid date read as
`0` (the value the `NaN`-coerced comparator arithmetic exposes). -/
def keyD (a : Article) : Int := (dateValue a.publishedAt).getD 0

/-- A parseable `publishedAt` parses to exactly its key. -/
theorem dateValue_eq_some_keyD {a : Article}
    (h : (dateValue a.publishedAt).isSome = true) :
    dateValue a.publishedAt = some (keyD a) := by
  rw [keyD]
  cases hv : dateValue a.publishedAt with
  | none => rw [hv] at h; cases h
  | some t => rfl

/-- On articles with parseable dates, the script's comparator relation
agrees with the key comparison `keyD b ≤ keyD a`. -/
theorem sortLe_agrees {a b : Article}
    (ha : (dateValue a.publishedAt).isSome = true)
    (hb : (dateValue b.publishedAt).isSome = true) :
    sortLe a b = decide (keyD b ≤ keyD a) := by
  have ha' := dateValue_eq_some_keyD ha
  have hb' := dateValue_eq_some_keyD hb
  rw [sortLe, dateCmp, ha', hb']
  exact decide_eq_decide.mpr sub_nonpos

/-- `Promise.all` over resolved inputs resolves to the list of their
results. -/
theorem promiseAll_map_ok {ε α : Type} (l : List α) :
    promiseAll (l.map (Except.ok : α → Except ε α)) = Except.ok l := by
  induction l with
  | nil => rfl
  | cons a as ih => simp [promiseAll, ih, Except.map]

/-- `Promise.all` rejects when any input rejects. -/
theorem promiseAll_error_of_mem {ε α : Type} {l : List (Except ε α)} {e : ε}
    (h : Except.error e ∈ l) : ∃ e2, promiseAll l = Except.error e2 := by
  induction l with
  | nil => cases h
  | cons x xs ih =>
    cases x with
    | error e1 => exact ⟨e1, rfl⟩
    | ok a =>
      rcases List.mem_cons.mp h with h1 | h2
      · simp at h1
      · obtain ⟨e2, he⟩ := ih h2
        refine ⟨e2, ?_⟩
        simp [promiseAll, he, Except.map]

/-- `fetchAllNews` over successful sources returns the merged, sorted
list. -/
theorem fetchAllNewsFrom_map_ok (results : List (List Article)) :
    fetchAllNewsFrom (results.map Except.ok) = Except.ok (aggregate results) := by
  rw [fetchAllNewsFrom, promiseAll_map_ok]

/-- A list whose last piece mismatches the target's tail is not the
target. -/
theorem append_ne_of_suffix_mismatch (pre mid suf target : List Char)
    (h : target.reverse.take suf.length ≠ suf.reverse) :
    pre ++ (mid ++ suf) ≠ target := by
  intro he
  apply h
  rw [← he, List.reverse_append, List.reverse_append, List.append_assoc]
  exact List.take_left' (by simp)

/-- The modelled credential message differs from every generic
`displayError` text (their tails differ). -/
theorem credentialMessage_ne_displayErrorText (m : String) :
    credentialMessage ≠ displayErrorText m := by
  intro h
  have hd : credentialMessage.data = (displayErrorText m).data := congrArg String.data h
  rw [displayErrorText, String.data_append, String.data_append,
      List.append_assoc] at hd
  exact absurd hd.symm (append_ne_of_suffix_mismatch _ _ _ _ (by decide))

/-- The key comparison relation the comparator realises on parseable
dates: `a` may precede `b` iff `b`'s timestamp is at most `a`'s. -/
def keyLe (a b : Article) : Bool := decide (keyD b ≤ keyD a)

/-- On lists of articles with parseable, pairwise-distinct timestamps
the merge-and-sort output is strictly descending by timestamp. -/
theorem aggregate_sorted (results : List (List Article))
    (hsome : ∀ a ∈ results.flatten, (dateValue a.publishedAt).isSome = true)
    (hnodup : (results.flatten.map (fun a => dateValue a.publishedAt)).Nodup) :
    (aggregate results).Pairwise (fun a b => keyD b < keyD a) := by
  have hagree : ∀ x y : Article, (dateValue x.publishedAt).isSome = true →
      (dateValue y.publishedAt).isSome = true → sortLe x y = keyLe x y :=
    fun x y hx hy => sortLe_agrees hx hy
  have hsort : aggregate results = jsArraySort keyLe results.flatten :=
    jsArraySort_congr hagree hsome
  have htot : ∀ x y : Article, keyLe x y = true ∨ keyLe y x = true := by
    intro x y
    rcases Int.le_total (keyD y) (keyD x) with h | h
    · exact Or.inl (decide_eq_true h)
    · exact Or.inr (decide_eq_true h)
  have htrans : ∀ x y z : Article,
      keyLe x y = true → keyLe y z = true → keyLe x z = true := by
    intro x y z h1 h2
    exact decide_eq_true (le_trans (of_decide_eq_true h2) (of_decide_eq_true h1))
  have hle : (jsArraySort keyLe results.flatten).Pairwise (fun a b => keyD b ≤ keyD a) :=
    (pairwise_jsArraySort htot htrans results.flatten).imp fun h => of_decide_eq_true h
  have hne : results.flatten.Pairwise (fun a b => keyD a ≠ keyD b) := by
    have h1 : results.flatten.Pairwise
        (fun a b => dateValue a.publishedAt ≠ dateValue b.publishedAt) :=
      List.pairwise_map.mp hnodup
    refine List.Pairwise.imp_of_mem ?_ h1
    intro a b ha hb hab hk
    apply hab
    rw [dateValue_eq_some_keyD (hsome a ha), dateValue_eq_some_keyD (hsome b hb), hk]
  have hne2 : (jsArraySort keyLe results.flatten).Pairwise (fun a b => keyD a ≠ keyD b) :=
    ((perm_jsArraySort keyLe results.flatten).pairwise_iff fun h => Ne.symm h).mpr hne
  rw [hsort]
  exact (hle.and hne2).imp fun h => lt_of_le_of_ne h.1 (Ne.symm h.2)

/-- C1 (cache short-circuit): whenever the cache is fresh, the
get-articles operation returns the cached article list verbatim,
invokes zero Source Clients, and leaves the cache untouched.  The
Cache Store is modelled from the spec (src/script.js has no cache). -/
theorem cache_short_circuit (cache : Option CacheEntry) (nowEpochMs maxAgeMs : Int)
    (sources : List (Except String (List Article))) (e : CacheEntry)
    (hc : cache = some e) (hf : isFresh cache nowEpochMs maxAgeMs = true) :
    getArticles cache nowEpochMs maxAgeMs sources =
      { result := Except.ok e.articles, sourceCalls := 0, cacheAfter := cache } := by
  subst hc
  simp [getArticles, hf]

/-- Concrete run of the cache short-circuit: a fresh cache returns its
list with no source invoked even though the only source would fail. -/
theorem cache_short_circuit_witness :
    getArticles (some { articles := aiHeadlines, fetchedAtEpochMs := 100 }) 101 28800000
        [Except.error "boom"] =
      { result := Except.ok aiHeadlines, sourceCalls := 0,
        cacheAfter := some { articles := aiHeadlines, fetchedAtEpochMs := 100 } } :=
  cache_short_circuit (some { articles := aiHeadlines, fetchedAtEpochMs := 100 })
    101 28800000 [Except.error "boom"] { articles := aiHeadlines, fetchedAtEpochMs := 100 }
    rfl (by decide)

/-- C2 (sort order): for per-source article lists whose `publishedAt`
values are all parseable and pairwise distinct as timestamps, the list
the aggregation returns is sorted strictly descending by the parsed
timestamp (newest first). -/
theorem sort_order_strict_desc (results : List (List Article))
    (hsome : ∀ a ∈ results.flatten, (dateValue a.publishedAt).isSome = true)
    (hnodup : (results.flatten.map (fun a => dateValue a.publishedAt)).Nodup) :
    fetchAllNewsFrom (results.map Except.ok) = Except.ok (aggregate results) ∧
    (aggregate results).Pairwise (fun a b => keyD b < keyD a) :=
  ⟨fetchAllNewsFrom_map_ok results, aggregate_sorted results hsome hnodup⟩

/-- Concrete run of the sort-order theorem on the two mock sources. -/
theorem sort_order_strict_desc_witness :
    fetchAllNewsFrom ([aiHeadlines, techBlogs].map Except.ok) =
        Except.ok (aggregate [aiHeadlines, techBlogs]) ∧
    (aggregate [aiHeadlines, techBlogs]).Pairwise (fun a b => keyD b < keyD a) :=
  sort_order_strict_desc [aiHeadlines, techBlogs] (by decide) (by decide)

/-- C3 (fail-fast aggregation): if any one Source Client fails, the
whole aggregation fails — `fetchAllNews` rejects and (in the
spec-modelled cache-or-fetch flow, on a stale cache) `getArticles`
fails with no cache write; no partial result is returned. -/
theorem fail_fast_aggregation (sources : List (Except String (List Article)))
    (msg : String) (hmem : Except.error msg ∈ sources)
    (cache : Option CacheEntry) (nowEpochMs maxAgeMs : Int)
    (hstale : isFresh cache nowEpochMs maxAgeMs = false) :
    (∃ e, fetchAllNewsFrom sources = Except.error e) ∧
    (∃ e, (getArticles cache nowEpochMs maxAgeMs sources).result = Except.error e) ∧
    (getArticles cache nowEpochMs maxAgeMs sources).cacheAfter = cache := by
  obtain ⟨e2, he⟩ := promiseAll_error_of_mem hmem
  refine ⟨⟨e2, ?_⟩, ⟨e2, ?_⟩, ?_⟩
  · rw [fetchAllNewsFrom, he]
  · simp [getArticles, hstale, he]
  · simp [getArticles, hstale, he]

/-- Concrete run of fail-fast aggregation: one failing source among a
succeeding one rejects the whole fetch and writes no cache. -/
theorem fail_fast_aggregation_witness :
    (∃ e, fetchAllNewsFrom [Except.ok aiHeadlines, Except.error "boom"] = Except.error e) ∧
    (∃ e, (getArticles none 0 28800000
        [Except.ok aiHeadlines, Except.error "boom"]).result = Except.error e) ∧
    (getArticles none 0 28800000 [Except.ok aiHeadlines, Except.error "boom"]).cacheAfter
      = none :=
  fail_fast_aggregation [Except.ok aiHeadlines, Except.error "boom"] "boom"
    (by decide) none 0 28800000 (by decide)

/-- C4 (merge completeness): for every combination of Source Client
results the aggregation output length equals the sum of the lengths of
each source's output (in particular for disjoint inputs with distinct
timestamps — no hypothesis is needed). -/
theorem merge_completeness (results : List (List Article)) :
    fetchAllNewsFrom (results.map Except.ok) = Except.ok (aggregate results) ∧
    (aggregate results).length = (results.map List.length).sum := by
  refine ⟨fetchAllNewsFrom_map_ok results, ?_⟩
  rw [aggregate, length_jsArraySort, List.length_flatten]

/-- An article whose `publishedAt` the `Date` parser rejects. -/
def unparseableArticle : Article :=
  { title := some "Malformed", url := none, description := none, source := none,
    publishedAt := "not-a-date" }

/-- An article dated 2024-01-01. -/
def olderArticle : Article :=
  { title := some "Older", url := none, description := none, source := none,
    publishedAt := "2024-01-01T00:00:00Z" }

/-- An article dated 2024-01-02. -/
def newerArticle : Article :=
  { title := some "Newer", url := none, description := none, source := none,
    publishedAt := "2024-01-02T00:00:00Z" }

/-- C5 (unparseable-timestamp determinism) — evidence of the latent
bug the spec flags: the comparator result on an unparseable
`publishedAt` is `NaN`, which `SortCompare` coerces to `0`, so the
unparseable article compares "equal" to both of two articles that do
not compare equal to each other.  The comparison is therefore not
transitive, i.e. not a consistent comparison function, and ECMAScript
leaves the resulting sort order implementation-defined rather than a
well-defined ordering. -/
theorem nan_comparator_not_an_ordering :
    dateValue unparseableArticle.publishedAt = none ∧
    dateCmp olderArticle unparseableArticle = 0 ∧
    dateCmp unparseableArticle newerArticle = 0 ∧
    0 < dateCmp olderArticle newerArticle := by
  refine ⟨rfl, rfl, rfl, ?_⟩
  decide

/-- C6 (failure presentation): on every aggregation failure no article
list is produced (the news container stays empty), the loader is
hidden, and the boundary shows the generic failure text — special-cased
to the distinct credential message when the failure text indicates a
missing/invalid credential (boundary special-casing modelled from the
spec, src/script.js carries only the generic branch). -/
theorem failure_presentation (indicatesCredential : String → Bool)
    (fmtDate : String → String) (fetched : Except String (List Article)) (msg : String)
    (hr : fetched = Except.error msg) :
    (initBoundary indicatesCredential fmtDate fetched).newsHtml = "" ∧
    (initBoundary indicatesCredential fmtDate fetched).loaderDisplay = "none" ∧
    (initBoundary indicatesCredential fmtDate fetched).errorDisplay = "block" ∧
    (initBoundary indicatesCredential fmtDate fetched).errorText =
      boundaryFailureText indicatesCredential (effectiveMessage msg) ∧
    (indicatesCredential (effectiveMessage msg) = true →
      (initBoundary indicatesCredential fmtDate fetched).errorText = credentialMessage) ∧
    (indicatesCredential (effectiveMessage msg) = false →
      (initBoundary indicatesCredential fmtDate fetched).errorText =
        displayErrorText (effectiveMessage msg)) ∧
    credentialMessage ≠ displayErrorText (effectiveMessage msg) := by
  subst hr
  refine ⟨rfl, rfl, rfl, rfl, ?_, ?_, credentialMessage_ne_displayErrorText _⟩
  · intro h
    simp [initBoundary, boundaryFailureText, h]
  · intro h
    simp [initBoundary, boundaryFailureText, h]

/-- Concrete run of the failure presentation on a credential failure. -/
theorem failure_presentation_witness :
    (initBoundary (fun s => decide (s = "Invalid API key")) id
        (Except.error "Invalid API key")).newsHtml = "" ∧
    (initBoundary (fun s => decide (s = "Invalid API key")) id
        (Except.error "Invalid API key")).loaderDisplay = "none" ∧
    (initBoundary (fun s => decide (s = "Invalid API key")) id
        (Except.error "Invalid API key")).errorDisplay = "block" ∧
    (initBoundary (fun s => decide (s = "Invalid API key")) id
        (Except.error "Invalid API key")).errorText =
      boundaryFailureText (fun s => decide (s = "Invalid API key"))
        (effectiveMessage "Invalid API key") ∧
    ((fun s => decide (s = "Invalid API key")) (effectiveMessage "Invalid API key") = true →
      (initBoundary (fun s => decide (s = "Invalid API key")) id
        (Except.error "Invalid API key")).errorText = credentialMessage) ∧
    ((fun s => decide (s = "Invalid API key")) (effectiveMessage "Invalid API key") = false →
      (initBoundary (fun s => decide (s = "Invalid API key")) id
        (Except.error "Invalid API key")).errorText =
          displayErrorText (effectiveMessage "Invalid API key")) ∧
    credentialMessage ≠ displayErrorText (effectiveMessage "Invalid API key") :=
  failure_presentation (fun s => decide (s = "Invalid API key")) id
    (Except.error "Invalid API key") "Invalid API key" rfl

/-- C7 (default title substitution): rendering substitutes the default
display text for an absent title, and likewise the defaults for absent
url, description and source — no field is shown absent. -/
theorem default_substitution (fmtDate : String → String) (a : Article) :
    (a.title = none → articleHtml fmtDate a =
      articleHtml fmtDate { a with title := some "Untitled Article" }) ∧
    (a.url = none → articleHtml fmtDate a =
      articleHtml fmtDate { a with url := some "#" }) ∧
    (a.description = none → articleHtml fmtDate a =
      articleHtml fmtDate { a with description := some "No description available." }) ∧
    (a.source = none → articleHtml fmtDate a =
      articleHtml fmtDate { a with source := some "Unknown Source" }) := by
  refine ⟨?_, ?_, ?_, ?_⟩ <;> intro h <;> simp [articleHtml, orDefault, h]

/-- An article with every optional field absent. -/
def bareArticle : Article :=
  { title := none, url := none, description := none, source := none,
    publishedAt := "2024-01-01T00:00:00Z" }

/-- Concrete run of default substitution on an article with all
optional fields absent. -/
theorem default_substitution_witness :
    (articleHtml id bareArticle =
      articleHtml id { bareArticle with title := some "Untitled Article" }) ∧
    (articleHtml id bareArticle =
      articleHtml id { bareArticle with url := some "#" }) ∧
    (articleHtml id bareArticle =
      articleHtml id { bareArticle with description := some "No description available." }) ∧
    (articleHtml id bareArticle =
      articleHtml id { bareArticle with source := some "Unknown Source" }) :=
  ⟨(default_substitution id bareArticle).1 rfl,
   (default_substitution id bareArticle).2.1 rfl,
   (default_substitution id bareArticle).2.2.1 rfl,
   (default_substitution id bareArticle).2.2.2 rfl⟩

/-- C8 (fixed deterministic output): with the two configured mock
sources, `fetchAllNews` always resolves to exactly this four-article
list in this order — Tech Frontier 2024-10-27 09:00 first, then the
two AI News Central articles (18:00 before 14:30 on 2024-10-26), then
Tech Frontier 2024-10-25 11:00 last. -/
theorem fixed_mock_output :
    fetchAllNews = Except.ok
      [ { title := some "Is AGI Closer Than We Think? A Deep Dive",
          url := some "#",
          description := some "A comprehensive analysis of the current state of Artificial General Intelligence research and the remaining hurdles.",
          source := some "Tech Frontier",
          publishedAt := "2024-10-27T09:00:00Z" },
        { title := some "New Breakthrough in Large Language Models Allows for Real-Time Reasoning",
          url := some "#",
          description := some "Researchers have developed a novel architecture that significantly reduces the computational overhead of LLMs, paving the way for on-device AI.",
          source := some "AI News Central",
          publishedAt := "2024-10-26T18:00:00Z" },
        { title := some "Generative AI Creates Award-Winning Short Film",
          url := some "#",
          description := some "An AI model named 'Cinemind' has written, directed, and edited a short film that has won accolades at an independent film festival.",
          source := some "AI News Central",
          publishedAt := "2024-10-26T14:30:00Z" },
        { title := some "How to Fine-Tune Your Own AI Model with Public Datasets",
          url := some "#",
          description := some "A step-by-step guide for developers looking to specialize open-source models for their own unique applications.",
          source := some "Tech Frontier",
          publishedAt := "2024-10-25T11:00:00Z" } ] := by
  rfl

/-- C9 (permutation preservation): for every combination of source
results the aggregation returns a permutation of the concatenation of
the individual sources' lists — sorting only reorders, nothing is
added, dropped or modified. -/
theorem aggregation_is_permutation (results : List (List Article)) :
    fetchAllNewsFrom (results.map Except.ok) = Except.ok (aggregate results) ∧
    List.Perm (aggregate results) results.flatten :=
  ⟨fetchAllNewsFrom_map_ok results, perm_jsArraySort sortLe results.flatten⟩

/-- C10 (error path unreachable): both configured mock Source Clients
always resolve, so `fetchAllNews` resolves and `init` ends in the
success state — the error container stays hidden and empty, i.e. the
catch branch and `displayError` are never reached. -/
theorem mock_error_path_unreachable (fmtDate : String → String) :
    mockFetchAIHeadlines = Except.ok aiHeadlines ∧
    mockFetchTechBlogs = Except.ok techBlogs ∧
    fetchAllNews = Except.ok (aggregate [aiHeadlines, techBlogs]) ∧
    init fmtDate fetchAllNews =
      { loaderDisplay := "none", errorDisplay := "none", errorText := "",
        newsHtml := renderArticles fmtDate (aggregate [aiHeadlines, techBlogs]) } := by
  have hf : fetchAllNews = Except.ok (aggregate [aiHeadlines, techBlogs]) :=
    fetchAllNewsFrom_map_ok [aiHeadlines, techBlogs]
  refine ⟨rfl, rfl, hf, ?_⟩
  rw [hf]
  rfl
